import Mathlib

/-!
# pbgopy `paste` command: shallow embedding of `commands/paste.go`

The embedding covers `pasteRunner.run` (lines 46-101) and `pasteRunner.getSalt`
(lines 103-122).  Every call that leaves the function (environment lookup,
HTTP, helper functions of the package, the decryption primitive, the write to
stdout, the deferred close of a response body) is recorded, in program order,
in a trace of `Event`s; the answers of those callees are supplied by a `World`.

Go strings that hold configuration text are Lean `String`s read as character
sequences; Go byte slices are `List UInt8`.  The conversion `string(data)` is
a bytewise copy and `fmt.Fprint` with a single string operand writes those
bytes unchanged, so the write event carries the bytes themselves.
-/

namespace Pbgopy

/-- Go byte slice. -/
abbrev Bytes := List UInt8

/-- Go `error` values: a leaf error with its message, or an error built by
`fmt.Errorf("<ctx>%w", inner)`. -/
inductive GoError where
  | base (msg : String)
  | wrap (ctx : String) (inner : GoError)
  deriving DecidableEq, Repr

/-- The `Error()` method: a wrapped error prints its context followed by the
message of the error it wraps. -/
def GoError.Error : GoError → String
  | .base msg => msg
  | .wrap ctx inner => ctx ++ inner.Error

/-- What `errors.Unwrap` returns. -/
def GoError.unwrap : GoError → Option GoError
  | .base _ => none
  | .wrap _ inner => some inner

/-- An `*http.Request` as far as this file uses it. -/
structure Request where
  method : String
  url : String
  header : List (String × String)
  deriving DecidableEq, Repr

/-- A response body stream. -/
structure Body where
  stream : Bytes
  deriving DecidableEq, Repr

/-- An `*http.Response` as far as this file uses it. -/
structure Response where
  statusCode : Int
  status : String
  body : Body
  deriving DecidableEq, Repr

/-- The `http.Client` built at line 51. -/
structure Client where
  timeout : Int
  deriving DecidableEq, Repr

/-- The receiver of `run` and `getSalt`, lines 17-25 (the two writers are
represented by the trace). -/
structure pasteRunner where
  timeout : Int
  password : String
  basicAuth : String
  maxBufSize : String
  deriving DecidableEq, Repr

/-- Calls made by `run` and `getSalt`, in program order. -/
inductive Event where
  | getenv (name : String)
  | newRequest (method url : String)
  | addBasicAuthHeader (req : Request) (cred : String)
  | clientDo (client : Client) (req : Request)
  | datasizeToBytes (size : String)
  | readNoMoreThan (body : Body) (limit : Int)
  | getPasswordFromFile (path : String)
  | getSalt (client : Client) (address : String)
  | readAll (body : Body)
  | closeBody (body : Body)
  | decrypt (password : String) (salt data : Bytes)
  | stdoutWrite (text : Bytes)
  deriving DecidableEq, Repr

/-- Everything `paste.go` calls but does not define: the standard library
(`os.Getenv`, `http.NewRequest`, `Client.Do`, `ioutil.ReadAll`), the helpers and
constants of package `commands` that live in other files
(`addBasicAuthHeader`, `datasizeToBytes`, `readNoMoreThan`,
`getPasswordFromFile`, `pbgopyServerEnv`, `pbgopyPasswordFileEnv`, `saltPath`)
and `pbcrypto.Decrypt`. -/
structure World where
  pbgopyServerEnv : String
  pbgopyPasswordFileEnv : String
  saltPath : String
  getenv : String → String
  newRequest : String → String → Except GoError Request
  addBasicAuthHeader : Request → String → Request
  clientDo : Client → Request → Except GoError Response
  datasizeToBytes : String → Except GoError Int
  readNoMoreThan : Body → Int → Except GoError Bytes
  getPasswordFromFile : String → Except GoError String
  readAll : Body → Except GoError Bytes
  decrypt : String → Bytes → Bytes → Except GoError Bytes

/-- Go `strings.HasSuffix(s, suffix)`:
`len(s) >= len(suffix) && s[len(s)-len(suffix):] == suffix`. -/
def hasSuffix (s suffix : String) : Bool :=
  decide (suffix.data.length ≤ s.data.length) &&
    (s.data.drop (s.data.length - suffix.data.length) == suffix.data)

/-- Go slice expression `s[:n]`. -/
def sliceTo (s : String) (n : Nat) : String :=
  String.mk (s.data.take n)

/-- Lines 105-107 of `getSalt`: the address after the conditional re-slice. -/
def trimmedAddress (address : String) : String :=
  if hasSuffix address "/" then sliceTo address (address.data.length - 1) else address

/-- The first argument of `fmt.Sprintf("%s%s", address, saltPath)` at line 108,
after lines 105-107. -/
def saltURL (W : World) (address : String) : String :=
  trimmedAddress address ++ W.saltPath

/-- Method `pasteRunner.getSalt`, lines 104-122: the calls it makes and the pair
it returns. -/
def getSalt (W : World) (r : pasteRunner) (client : Client) (address : String) :
    List Event × Except GoError Bytes :=
  let url := saltURL W address
  let t0 := [Event.getSalt client address, Event.newRequest "GET" url]
  match W.newRequest "GET" url with
  | .error err => (t0, .error (.wrap "failed to make request: " err))
  | .ok req =>
    let req1 := W.addBasicAuthHeader req r.basicAuth
    let t1 := t0 ++ [Event.addBasicAuthHeader req r.basicAuth, Event.clientDo client req1]
    match W.clientDo client req1 with
    | .error err => (t1, .error (.wrap "failed to issue get request: " err))
    | .ok res =>
      if res.statusCode ≠ 200 then
        (t1 ++ [Event.closeBody res.body],
          .error (.base ("failed request: Status " ++ res.status)))
      else
        (t1 ++ [Event.readAll res.body, Event.closeBody res.body], W.readAll res.body)

/-- Lines 77-86 of `run`: the calls made while choosing the password and the
chosen password, or the error returned at line 84. -/
def resolvePassword (W : World) (r : pasteRunner) : List Event × Except GoError String :=
  if r.password ≠ "" then
    ([], .ok r.password)
  else if W.getenv W.pbgopyPasswordFileEnv ≠ "" then
    ([Event.getenv W.pbgopyPasswordFileEnv, Event.getenv W.pbgopyPasswordFileEnv,
        Event.getPasswordFromFile (W.getenv W.pbgopyPasswordFileEnv)],
      W.getPasswordFromFile (W.getenv W.pbgopyPasswordFileEnv))
  else
    ([Event.getenv W.pbgopyPasswordFileEnv], .ok "")

/-- Result of one invocation of `run`: the calls made and the returned error
(`none` is Go `nil`). -/
structure Outcome where
  trace : List Event
  err : Option GoError
  deriving DecidableEq, Repr

/-- Lines 88-100 of `run`: with the bounded body `data` and the chosen
`password` at hand, and `t` the calls made so far.  The body of the primary
response is closed by the deferred call of line 64 when `run` returns. -/
def decryptAndEmit (W : World) (r : pasteRunner) (client : Client) (address : String)
    (primary : Body) (t : List Event) (data : Bytes) (password : String) : Outcome :=
  if password ≠ "" then
    match getSalt W r client address with
    | (ts, .error err) =>
      ⟨t ++ ts ++ [Event.closeBody primary], some (.wrap "failed to get salt: " err)⟩
    | (ts, .ok salt) =>
      match W.decrypt password salt data with
      | .error err =>
        ⟨t ++ ts ++ [Event.decrypt password salt data, Event.closeBody primary],
          some (.wrap "failed to decrypt the data: " err)⟩
      | .ok plain =>
        ⟨t ++ ts ++ [Event.decrypt password salt data, Event.stdoutWrite plain,
          Event.closeBody primary], none⟩
  else
    ⟨t ++ [Event.stdoutWrite data, Event.closeBody primary], none⟩

/-- Method `pasteRunner.run`, lines 46-101. -/
def run (W : World) (r : pasteRunner) : Outcome :=
  let address := W.getenv W.pbgopyServerEnv
  let t0 := [Event.getenv W.pbgopyServerEnv]
  if address = "" then
    ⟨t0, some (.base ("put the pbgopy server's address into " ++ W.pbgopyServerEnv ++
      " environment variable"))⟩
  else
    let client : Client := ⟨r.timeout⟩
    let t1 := t0 ++ [Event.newRequest "GET" address]
    match W.newRequest "GET" address with
    | .error err => ⟨t1, some (.wrap "failed to make request: " err)⟩
    | .ok req =>
      let req1 := W.addBasicAuthHeader req r.basicAuth
      let t2 := t1 ++ [Event.addBasicAuthHeader req r.basicAuth, Event.clientDo client req1]
      match W.clientDo client req1 with
      | .error err => ⟨t2, some (.wrap "failed to issue get request: " err)⟩
      | .ok res =>
        if res.statusCode ≠ 200 then
          ⟨t2 ++ [Event.closeBody res.body],
            some (.base ("failed request: Status " ++ res.status))⟩
        else
          let t3 := t2 ++ [Event.datasizeToBytes r.maxBufSize]
          match W.datasizeToBytes r.maxBufSize with
          | .error err =>
            ⟨t3 ++ [Event.closeBody res.body], some (.wrap "failed to parse data size: " err)⟩
          | .ok sizeInBytes =>
            let t4 := t3 ++ [Event.readNoMoreThan res.body sizeInBytes]
            match W.readNoMoreThan res.body sizeInBytes with
            | .error err =>
              ⟨t4 ++ [Event.closeBody res.body],
                some (.wrap "failed to read the response body: " err)⟩
            | .ok data =>
              match resolvePassword W r with
              | (tp, .error err) => ⟨t4 ++ tp ++ [Event.closeBody res.body], some err⟩
              | (tp, .ok password) =>
                decryptAndEmit W r client address res.body (t4 ++ tp) data password

/-- The texts written to stdout, in order. -/
def stdoutWrites : List Event → List Bytes
  | [] => []
  | .stdoutWrite text :: t => text :: stdoutWrites t
  | _ :: t => stdoutWrites t

/-- The argument triples of the calls of the decryption primitive, in order. -/
def decryptCalls : List Event → List (String × Bytes × Bytes)
  | [] => []
  | .decrypt password salt data :: t => (password, salt, data) :: decryptCalls t
  | _ :: t => decryptCalls t

/-- The HTTP requests sent with `client.Do`, in order. -/
def httpCalls : List Event → List (Client × Request)
  | [] => []
  | .clientDo client req :: t => (client, req) :: httpCalls t
  | _ :: t => httpCalls t

/-- The (method, URL) pairs handed to `http.NewRequest`, in order. -/
def requestsMade : List Event → List (String × String)
  | [] => []
  | .newRequest method url :: t => (method, url) :: requestsMade t
  | _ :: t => requestsMade t

/-- A fake deployment for concrete runs: a server at `http://host:9090/` that
answers the primary path with `primary` and the salt path with `salt`, a
password file variable set to `passwordFile` whose reader returns
`fileResult`, a size parser knowing two sizes, a bounded reader, and a toy
cipher that accepts only the password `secret` with a 16-byte salt. -/
def fakeWorld (passwordFile : String) (primary salt : Response)
    (fileResult : Except GoError String) : World where
  pbgopyServerEnv := "PBGOPY_SERVER"
  pbgopyPasswordFileEnv := "PBGOPY_PASSWORD_FILE"
  saltPath := "/salt"
  getenv := fun name =>
    if name = "PBGOPY_SERVER" then "http://host:9090/"
    else if name = "PBGOPY_PASSWORD_FILE" then passwordFile else ""
  newRequest := fun method url => .ok ⟨method, url, []⟩
  addBasicAuthHeader := fun req cred =>
    if cred = "" then req else ⟨req.method, req.url, ("Authorization", cred) :: req.header⟩
  clientDo := fun _ req =>
    if req.url = "http://host:9090/" then .ok primary
    else if req.url = "http://host:9090/salt" then .ok salt
    else .error (.base "connection refused")
  datasizeToBytes := fun size =>
    if size = "500mb" then .ok 500000000
    else if size = "10b" then .ok 10
    else .error (.base "invalid size")
  readNoMoreThan := fun body limit =>
    if (body.stream.length : Int) ≤ limit then .ok body.stream
    else .error (.base "payload too large")
  getPasswordFromFile := fun _ => fileResult
  readAll := fun body => .ok body.stream
  decrypt := fun password salt data =>
    if password = "secret" ∧ salt.length = 16 then .ok data.reverse
    else .error (.base "cipher: message authentication failed")

/-- The bytes of `hello\n`. -/
def helloBytes : Bytes := [104, 101, 108, 108, 111, 10]

/-- The bytes of `hi\n`. -/
def hiBytes : Bytes := [104, 105, 10]

/-- A 16-byte salt `0x01 .. 0x10`. -/
def salt16 : Bytes := [1, 2, 3, 4, 5, 6, 7, 8, 9, 10, 11, 12, 13, 14, 15, 16]

/-- Default flag values of the command (lines 39-42) with the given password. -/
def defaultRunner (password : String) : pasteRunner :=
  ⟨5000000000, password, "", "500mb"⟩

/-- Status 200 response with the given body. -/
def okResponse (body : Bytes) : Response := ⟨200, "200 OK", ⟨body⟩⟩

/-- Status 404 response. -/
def notFound : Response := ⟨404, "404 Not Found", ⟨[]⟩⟩

/-- Spec wording of the address normalisation: the address with its last
character removed if it ends in a slash, unchanged otherwise. -/
def specNorm (a : String) : String :=
  if a.data.getLast? = some '/' then String.mk a.data.dropLast else a

/-- The trace ends with its only write to stdout: stdout is written exactly
once and nothing happens after the write. -/
def writeIsLastAction (t : List Event) : Prop :=
  ∃ before text, t = before ++ [Event.stdoutWrite text] ∧ stdoutWrites before = []

/-- The trace ends with its only write to stdout followed by the close of
`body`. -/
def writeThenClose (t : List Event) (body : Body) : Prop :=
  ∃ before text,
    t = before ++ [Event.stdoutWrite text, Event.closeBody body] ∧ stdoutWrites before = []

/-- Lines 47-75 of `run` all succeed: the address is set, the primary request
is built as `req` and answered by `res` with status 200, the size limit parses
to `size` and the bounded read of the body gives `data`. -/
def primaryFetched (W : World) (r : pasteRunner) (req : Request) (res : Response)
    (size : Int) (data : Bytes) : Prop :=
  W.getenv W.pbgopyServerEnv ≠ "" ∧
  W.newRequest "GET" (W.getenv W.pbgopyServerEnv) = .ok req ∧
  W.clientDo ⟨r.timeout⟩ (W.addBasicAuthHeader req r.basicAuth) = .ok res ∧
  res.statusCode = 200 ∧
  W.datasizeToBytes r.maxBufSize = .ok size ∧
  W.readNoMoreThan res.body size = .ok data

/-- The calls of lines 47-75 of `run` when they all succeed. -/
def primaryTrace (W : World) (r : pasteRunner) (req : Request) (res : Response)
    (size : Int) : List Event :=
  [Event.getenv W.pbgopyServerEnv,
    Event.newRequest "GET" (W.getenv W.pbgopyServerEnv),
    Event.addBasicAuthHeader req r.basicAuth,
    Event.clientDo ⟨r.timeout⟩ (W.addBasicAuthHeader req r.basicAuth),
    Event.datasizeToBytes r.maxBufSize,
    Event.readNoMoreThan res.body size]

/-- The paths handed to `getPasswordFromFile`, in order. -/
def fileReads : List Event → List String
  | [] => []
  | .getPasswordFromFile path :: t => path :: fileReads t
  | _ :: t => fileReads t

/-- The deferred `res.Body.Close()` calls of lines 64 and 117: cleanup whose
result is discarded. -/
def Event.isClose : Event → Bool
  | .closeBody _ => true
  | _ => false

/-- The fallible steps: the calls whose error result is checked and makes `run`
(or `getSalt`) return an error: `http.NewRequest` (lines 55, 109), `client.Do`
(61, 114), `datasizeToBytes` (69), `readNoMoreThan` (73), `getPasswordFromFile`
(83), `getSalt` (90), `ioutil.ReadAll` (121) and `pbcrypto.Decrypt` (94). -/
def Event.fallible : Event → Bool
  | .newRequest _ _ => true
  | .clientDo _ _ => true
  | .datasizeToBytes _ => true
  | .readNoMoreThan _ _ => true
  | .getPasswordFromFile _ => true
  | .getSalt _ _ => true
  | .readAll _ => true
  | .decrypt _ _ _ => true
  | _ => false

/-- The actions of a run: its calls without the deferred closes of response
bodies. -/
def actions (t : List Event) : List Event :=
  t.filter (fun e => !e.isClose)

/-- The only write to stdout comes after every fallible step of the trace: no
fallible step follows it. -/
def writeAfterFallibleSteps (t : List Event) : Prop :=
  ∃ before text after, t = before ++ Event.stdoutWrite text :: after ∧
    stdoutWrites before = [] ∧ stdoutWrites after = [] ∧
    t.filter Event.fallible = before.filter Event.fallible

@[simp] theorem stdoutWrites_append (s t : List Event) :
    stdoutWrites (s ++ t) = stdoutWrites s ++ stdoutWrites t := by
  induction s with
  | nil => rfl
  | cons e s ih => cases e <;> simp [stdoutWrites, ih]

@[simp] theorem decryptCalls_append (s t : List Event) :
    decryptCalls (s ++ t) = decryptCalls s ++ decryptCalls t := by
  induction s with
  | nil => rfl
  | cons e s ih => cases e <;> simp [decryptCalls, ih]

@[simp] theorem httpCalls_append (s t : List Event) :
    httpCalls (s ++ t) = httpCalls s ++ httpCalls t := by
  induction s with
  | nil => rfl
  | cons e s ih => cases e <;> simp [httpCalls, ih]

@[simp] theorem requestsMade_append (s t : List Event) :
    requestsMade (s ++ t) = requestsMade s ++ requestsMade t := by
  induction s with
  | nil => rfl
  | cons e s ih => cases e <;> simp [requestsMade, ih]

/-- C1: with no password in effect (password option empty, password-file
variable empty), a primary GET answered with status 200 whose size parse and
bounded read succeed with bytes `data` makes `run` return nil and write exactly
`data` to stdout, once. -/
theorem run_plaintext_emits_body (W : World) (r : pasteRunner) (req : Request)
    (res : Response) (size : Int) (data : Bytes)
    (haddr : W.getenv W.pbgopyServerEnv ≠ "")
    (hpw : r.password = "")
    (hfile : W.getenv W.pbgopyPasswordFileEnv = "")
    (hreq : W.newRequest "GET" (W.getenv W.pbgopyServerEnv) = .ok req)
    (hdo : W.clientDo ⟨r.timeout⟩ (W.addBasicAuthHeader req r.basicAuth) = .ok res)
    (hstatus : res.statusCode = 200)
    (hsize : W.datasizeToBytes r.maxBufSize = .ok size)
    (hread : W.readNoMoreThan res.body size = .ok data) :
    (run W r).err = none ∧ stdoutWrites (run W r).trace = [data] := by
  simp [run, haddr, hpw, hfile, hreq, hdo, hstatus, hsize, hread, resolvePassword,
    decryptAndEmit, stdoutWrites]

theorem run_plaintext_emits_body_witness :
    (run (fakeWorld "" (okResponse helloBytes) notFound (.ok "")) (defaultRunner "")).err = none ∧
    stdoutWrites (run (fakeWorld "" (okResponse helloBytes) notFound (.ok ""))
      (defaultRunner "")).trace = [helloBytes] :=
  run_plaintext_emits_body (fakeWorld "" (okResponse helloBytes) notFound (.ok ""))
    (defaultRunner "") ⟨"GET", "http://host:9090/", []⟩ (okResponse helloBytes) 500000000
    helloBytes (by decide) rfl rfl rfl rfl rfl rfl rfl

theorem hasSuffix_slash_iff (a : String) :
    hasSuffix a "/" = true ↔ a.data.getLast? = some '/' := by
  have hs : "/".data = ['/'] := rfl
  rcases List.eq_nil_or_concat' a.data with h | ⟨l, c, h⟩
  · simp [hasSuffix, h, hs]
  · simp [hasSuffix, h, hs]

theorem trimmedAddress_eq_specNorm (a : String) : trimmedAddress a = specNorm a := by
  unfold trimmedAddress specNorm sliceTo
  by_cases h : a.data.getLast? = some '/'
  · rw [if_pos ((hasSuffix_slash_iff a).2 h), if_pos h, List.dropLast_eq_take]
  · have h1 : ¬ hasSuffix a "/" = true := fun h2 => h ((hasSuffix_slash_iff a).1 h2)
    rw [if_neg h1, if_neg h]

theorem specNorm_append_slash (a : String) : specNorm (a ++ "/") = a := by
  have hs : "/".data = ['/'] := rfl
  apply String.ext
  simp [specNorm, hs]

theorem specNorm_of_no_slash (a : String) (h : hasSuffix a "/" = false) : specNorm a = a := by
  have h1 : ¬ a.data.getLast? = some '/' := by
    intro h2
    rw [(hasSuffix_slash_iff a).2 h2] at h
    exact Bool.noConfusion h
  simp [specNorm, h1]

/-- C6: the only URL `getSalt` hands to `http.NewRequest` is the normalised
address followed by the salt sub-path, and the request it sends is the one built
from it; the normalisation is the one of lines 105-107; it removes exactly one
trailing slash (an address ending in two slashes keeps one), and an address
without trailing slash and the same address with one slash added give the same
salt URL. -/
theorem getSalt_requests_normalised_url (W : World) (r : pasteRunner) (client : Client)
    (a : String) :
    requestsMade (getSalt W r client a).1 = [("GET", specNorm a ++ W.saltPath)] ∧
    (∀ req, W.newRequest "GET" (specNorm a ++ W.saltPath) = .ok req →
      httpCalls (getSalt W r client a).1 = [(client, W.addBasicAuthHeader req r.basicAuth)]) ∧
    trimmedAddress a = specNorm a ∧
    specNorm (a ++ "//") = a ++ "/" ∧
    hasSuffix (specNorm (a ++ "//")) "/" = true ∧
    specNorm (a ++ "/") = a ∧
    (hasSuffix a "/" = false → saltURL W (a ++ "/") = saltURL W a) := by
  have hs : "/".data = ['/'] := rfl
  have hss : "//".data = ['/', '/'] := rfl
  have h2 : specNorm (a ++ "//") = a ++ "/" := by
    apply String.ext
    simp [specNorm, hs, hss, List.dropLast]
  refine ⟨?_, ?_, trimmedAddress_eq_specNorm a, h2, ?_, specNorm_append_slash a, ?_⟩
  · unfold getSalt saltURL
    rw [trimmedAddress_eq_specNorm]
    simp only []
    split
    · simp [requestsMade]
    · split
      · simp [requestsMade]
      · split <;> simp [requestsMade]
  · intro req hreq
    unfold getSalt saltURL
    rw [trimmedAddress_eq_specNorm]
    simp only [hreq]
    split
    · simp [httpCalls]
    · split <;> simp [httpCalls]
  · rw [h2, hasSuffix_slash_iff]
    simp [hs]
  · intro h
    unfold saltURL
    rw [trimmedAddress_eq_specNorm, trimmedAddress_eq_specNorm, specNorm_append_slash,
      specNorm_of_no_slash a h]

theorem getSalt_requests_normalised_url_witness :
    hasSuffix "http://host:9090" "/" = false ∧
    saltURL (fakeWorld "" notFound notFound (.ok "")) ("http://host:9090" ++ "/") =
      saltURL (fakeWorld "" notFound notFound (.ok "")) "http://host:9090" :=
  ⟨by decide, (getSalt_requests_normalised_url (fakeWorld "" notFound notFound (.ok ""))
    (defaultRunner "") ⟨5000000000⟩ "http://host:9090").2.2.2.2.2.2 (by decide)⟩

theorem resolvePassword_trace_quiet (W : World) (r : pasteRunner) :
    stdoutWrites (resolvePassword W r).1 = [] ∧ decryptCalls (resolvePassword W r).1 = [] ∧
    httpCalls (resolvePassword W r).1 = [] ∧ requestsMade (resolvePassword W r).1 = [] := by
  unfold resolvePassword
  split
  · simp [stdoutWrites, decryptCalls, httpCalls, requestsMade]
  · split <;> simp [stdoutWrites, decryptCalls, httpCalls, requestsMade]

/-- C2: with a non-empty resolved password `pw`, a primary GET answered 200 with
bounded body `c`, a salt GET answered 200 with body `s`, and a successful
decryption, `run` calls the primitive exactly once, with `(pw, s, c)` in that
order, returns nil and writes exactly the decrypted bytes to stdout. -/
theorem run_decrypts_with_password_salt_body (W : World) (r : pasteRunner)
    (req sreq : Request) (res sres : Response) (size : Int) (c s p : Bytes) (pw : String)
    (haddr : W.getenv W.pbgopyServerEnv ≠ "")
    (hreq : W.newRequest "GET" (W.getenv W.pbgopyServerEnv) = .ok req)
    (hdo : W.clientDo ⟨r.timeout⟩ (W.addBasicAuthHeader req r.basicAuth) = .ok res)
    (hstatus : res.statusCode = 200)
    (hsize : W.datasizeToBytes r.maxBufSize = .ok size)
    (hread : W.readNoMoreThan res.body size = .ok c)
    (hpw : (resolvePassword W r).2 = .ok pw)
    (hne : pw ≠ "")
    (hsreq : W.newRequest "GET" (saltURL W (W.getenv W.pbgopyServerEnv)) = .ok sreq)
    (hsdo : W.clientDo ⟨r.timeout⟩ (W.addBasicAuthHeader sreq r.basicAuth) = .ok sres)
    (hsstatus : sres.statusCode = 200)
    (hsalt : W.readAll sres.body = .ok s)
    (hdec : W.decrypt pw s c = .ok p) :
    (run W r).err = none ∧ decryptCalls (run W r).trace = [(pw, s, c)] ∧
    stdoutWrites (run W r).trace = [p] := by
  obtain ⟨q1, q2, -, -⟩ := resolvePassword_trace_quiet W r
  rcases hrp : resolvePassword W r with ⟨tp, rp⟩
  rw [hrp] at hpw q1 q2
  simp only at hpw q1 q2
  subst hpw
  simp [run, haddr, hreq, hdo, hstatus, hsize, hread, hrp, decryptAndEmit, hne, getSalt,
    hsreq, hsdo, hsstatus, hsalt, hdec, stdoutWrites, decryptCalls, q1, q2]

theorem run_decrypts_with_password_salt_body_witness :
    (run (fakeWorld "" (okResponse hiBytes.reverse) (okResponse salt16) (.ok ""))
      (defaultRunner "secret")).err = none ∧
    decryptCalls (run (fakeWorld "" (okResponse hiBytes.reverse) (okResponse salt16) (.ok ""))
      (defaultRunner "secret")).trace = [("secret", salt16, hiBytes.reverse)] ∧
    stdoutWrites (run (fakeWorld "" (okResponse hiBytes.reverse) (okResponse salt16) (.ok ""))
      (defaultRunner "secret")).trace = [hiBytes] :=
  run_decrypts_with_password_salt_body
    (fakeWorld "" (okResponse hiBytes.reverse) (okResponse salt16) (.ok ""))
    (defaultRunner "secret") ⟨"GET", "http://host:9090/", []⟩ ⟨"GET", "http://host:9090/salt", []⟩
    (okResponse hiBytes.reverse) (okResponse salt16) 500000000 hiBytes.reverse salt16 hiBytes
    "secret" (by decide) rfl rfl rfl rfl rfl rfl (by decide) rfl rfl rfl rfl rfl

/-- C5: with a non-empty resolved password, a successful primary fetch and
bounded read, and a salt endpoint answering with a status other than 200,
`getSalt` returns an error, `run` returns that error wrapped with the context
`failed to get salt`, the decryption primitive is never called and nothing is
written to stdout. -/
theorem run_salt_status_failure (W : World) (r : pasteRunner)
    (req sreq : Request) (res sres : Response) (size : Int) (c : Bytes) (pw : String)
    (haddr : W.getenv W.pbgopyServerEnv ≠ "")
    (hreq : W.newRequest "GET" (W.getenv W.pbgopyServerEnv) = .ok req)
    (hdo : W.clientDo ⟨r.timeout⟩ (W.addBasicAuthHeader req r.basicAuth) = .ok res)
    (hstatus : res.statusCode = 200)
    (hsize : W.datasizeToBytes r.maxBufSize = .ok size)
    (hread : W.readNoMoreThan res.body size = .ok c)
    (hpw : (resolvePassword W r).2 = .ok pw)
    (hne : pw ≠ "")
    (hsreq : W.newRequest "GET" (saltURL W (W.getenv W.pbgopyServerEnv)) = .ok sreq)
    (hsdo : W.clientDo ⟨r.timeout⟩ (W.addBasicAuthHeader sreq r.basicAuth) = .ok sres)
    (hsstatus : sres.statusCode ≠ 200) :
    (getSalt W r ⟨r.timeout⟩ (W.getenv W.pbgopyServerEnv)).2 =
      .error (.base ("failed request: Status " ++ sres.status)) ∧
    (run W r).err =
      some (.wrap "failed to get salt: " (.base ("failed request: Status " ++ sres.status))) ∧
    (∃ e, (run W r).err = some e ∧
      e.Error = "failed to get salt: " ++ ("failed request: Status " ++ sres.status)) ∧
    decryptCalls (run W r).trace = [] ∧
    stdoutWrites (run W r).trace = [] := by
  obtain ⟨q1, q2, -, -⟩ := resolvePassword_trace_quiet W r
  rcases hrp : resolvePassword W r with ⟨tp, rp⟩
  rw [hrp] at hpw q1 q2
  simp only at hpw q1 q2
  subst hpw
  simp [run, haddr, hreq, hdo, hstatus, hsize, hread, hrp, decryptAndEmit, hne, getSalt,
    hsreq, hsdo, hsstatus, stdoutWrites, decryptCalls, q1, q2, GoError.Error]

theorem run_salt_status_failure_witness :
    (getSalt (fakeWorld "" (okResponse hiBytes.reverse) notFound (.ok ""))
      (defaultRunner "secret") ⟨(defaultRunner "secret").timeout⟩
      ((fakeWorld "" (okResponse hiBytes.reverse) notFound (.ok "")).getenv
        (fakeWorld "" (okResponse hiBytes.reverse) notFound (.ok "")).pbgopyServerEnv)).2 =
      .error (.base ("failed request: Status " ++ notFound.status)) ∧
    (run (fakeWorld "" (okResponse hiBytes.reverse) notFound (.ok ""))
      (defaultRunner "secret")).err =
      some (.wrap "failed to get salt: " (.base ("failed request: Status " ++ notFound.status))) ∧
    (∃ e, (run (fakeWorld "" (okResponse hiBytes.reverse) notFound (.ok ""))
      (defaultRunner "secret")).err = some e ∧
      e.Error = "failed to get salt: " ++ ("failed request: Status " ++ notFound.status)) ∧
    decryptCalls (run (fakeWorld "" (okResponse hiBytes.reverse) notFound (.ok ""))
      (defaultRunner "secret")).trace = [] ∧
    stdoutWrites (run (fakeWorld "" (okResponse hiBytes.reverse) notFound (.ok ""))
      (defaultRunner "secret")).trace = [] :=
  run_salt_status_failure (fakeWorld "" (okResponse hiBytes.reverse) notFound (.ok ""))
    (defaultRunner "secret") ⟨"GET", "http://host:9090/", []⟩ ⟨"GET", "http://host:9090/salt", []⟩
    (okResponse hiBytes.reverse) notFound 500000000 hiBytes.reverse "secret"
    (by decide) rfl rfl rfl rfl rfl rfl (by decide) rfl rfl (by decide)

/-- C3: when no password is configured (password option empty, password-file
variable empty), `getSalt` is never called by `run`, whatever the collaborators
answer: the trace has no `getSalt` call and no read of a salt body, at most one
request is constructed and it is for the server address itself, at most one
request is sent and it is the primary one, and the decryption primitive is not
called. -/
theorem run_without_password_never_fetches_salt (W : World) (r : pasteRunner)
    (hpw : r.password = "") (hfile : W.getenv W.pbgopyPasswordFileEnv = "") :
    (∀ c a, Event.getSalt c a ∉ (run W r).trace) ∧
    (∀ b, Event.readAll b ∉ (run W r).trace) ∧
    (requestsMade (run W r).trace = [] ∨
      requestsMade (run W r).trace = [("GET", W.getenv W.pbgopyServerEnv)]) ∧
    (httpCalls (run W r).trace = [] ∨
      ∃ req, W.newRequest "GET" (W.getenv W.pbgopyServerEnv) = .ok req ∧
        httpCalls (run W r).trace = [(⟨r.timeout⟩, W.addBasicAuthHeader req r.basicAuth)]) ∧
    decryptCalls (run W r).trace = [] := by
  have hrp : resolvePassword W r = ([Event.getenv W.pbgopyPasswordFileEnv], .ok "") := by
    simp [resolvePassword, hpw, hfile]
  simp only [run, hrp, decryptAndEmit]
  repeat' split
  all_goals simp_all [requestsMade, httpCalls, decryptCalls]

theorem run_without_password_never_fetches_salt_witness :
    (∀ c a, Event.getSalt c a ∉
      (run (fakeWorld "" (okResponse helloBytes) notFound (.ok "")) (defaultRunner "")).trace) ∧
    (∀ b, Event.readAll b ∉
      (run (fakeWorld "" (okResponse helloBytes) notFound (.ok "")) (defaultRunner "")).trace) ∧
    (requestsMade (run (fakeWorld "" (okResponse helloBytes) notFound (.ok ""))
        (defaultRunner "")).trace = [] ∨
      requestsMade (run (fakeWorld "" (okResponse helloBytes) notFound (.ok ""))
        (defaultRunner "")).trace =
        [("GET", (fakeWorld "" (okResponse helloBytes) notFound (.ok "")).getenv
          (fakeWorld "" (okResponse helloBytes) notFound (.ok "")).pbgopyServerEnv)]) ∧
    (httpCalls (run (fakeWorld "" (okResponse helloBytes) notFound (.ok ""))
        (defaultRunner "")).trace = [] ∨
      ∃ req, (fakeWorld "" (okResponse helloBytes) notFound (.ok "")).newRequest "GET"
          ((fakeWorld "" (okResponse helloBytes) notFound (.ok "")).getenv
            (fakeWorld "" (okResponse helloBytes) notFound (.ok "")).pbgopyServerEnv) = .ok req ∧
        httpCalls (run (fakeWorld "" (okResponse helloBytes) notFound (.ok ""))
          (defaultRunner "")).trace =
          [(⟨(defaultRunner "").timeout⟩,
            (fakeWorld "" (okResponse helloBytes) notFound (.ok "")).addBasicAuthHeader req
              (defaultRunner "").basicAuth)]) ∧
    decryptCalls (run (fakeWorld "" (okResponse helloBytes) notFound (.ok ""))
      (defaultRunner "")).trace = [] :=
  run_without_password_never_fetches_salt
    (fakeWorld "" (okResponse helloBytes) notFound (.ok "")) (defaultRunner "")
    (by decide) (by decide)

/-- C4: a primary response whose status code is not 200 makes `run` return the
error `failed request: Status <status text>`, after exactly the calls up to
`client.Do` and the deferred close: no size parse, no body read, no password
lookup, no salt request, no decryption, no output.  Conversely, with status
exactly 200 `run` goes on to parse the size limit, and any error it returns
comes from a later stage (size parser, bounded reader, password-file reader, salt
fetcher or decryption primitive). -/
theorem run_primary_status_check (W : World) (r : pasteRunner) (req : Request)
    (res : Response)
    (haddr : W.getenv W.pbgopyServerEnv ≠ "")
    (hreq : W.newRequest "GET" (W.getenv W.pbgopyServerEnv) = .ok req)
    (hdo : W.clientDo ⟨r.timeout⟩ (W.addBasicAuthHeader req r.basicAuth) = .ok res) :
    (res.statusCode ≠ 200 →
      (run W r).err = some (.base ("failed request: Status " ++ res.status)) ∧
      (∃ e before after, (run W r).err = some e ∧ e.Error = before ++ res.status ++ after) ∧
      (run W r).trace =
        [Event.getenv W.pbgopyServerEnv,
          Event.newRequest "GET" (W.getenv W.pbgopyServerEnv),
          Event.addBasicAuthHeader req r.basicAuth,
          Event.clientDo ⟨r.timeout⟩ (W.addBasicAuthHeader req r.basicAuth),
          Event.closeBody res.body] ∧
      (∀ size, Event.datasizeToBytes size ∉ (run W r).trace) ∧
      (∀ b limit, Event.readNoMoreThan b limit ∉ (run W r).trace) ∧
      (∀ path, Event.getPasswordFromFile path ∉ (run W r).trace) ∧
      (∀ c a, Event.getSalt c a ∉ (run W r).trace) ∧
      httpCalls (run W r).trace = [(⟨r.timeout⟩, W.addBasicAuthHeader req r.basicAuth)] ∧
      decryptCalls (run W r).trace = [] ∧
      stdoutWrites (run W r).trace = []) ∧
    (res.statusCode = 200 →
      Event.datasizeToBytes r.maxBufSize ∈ (run W r).trace ∧
      ∀ e, (run W r).err = some e →
        (∃ inner, e = .wrap "failed to parse data size: " inner) ∨
        (∃ inner, e = .wrap "failed to read the response body: " inner) ∨
        (resolvePassword W r).2 = .error e ∨
        (∃ inner, e = .wrap "failed to get salt: " inner) ∨
        (∃ inner, e = .wrap "failed to decrypt the data: " inner)) := by
  constructor
  · intro hstatus
    have htrace : (run W r).trace =
        [Event.getenv W.pbgopyServerEnv,
          Event.newRequest "GET" (W.getenv W.pbgopyServerEnv),
          Event.addBasicAuthHeader req r.basicAuth,
          Event.clientDo ⟨r.timeout⟩ (W.addBasicAuthHeader req r.basicAuth),
          Event.closeBody res.body] := by
      simp [run, haddr, hreq, hdo, hstatus]
    have herr : (run W r).err = some (.base ("failed request: Status " ++ res.status)) := by
      simp [run, haddr, hreq, hdo, hstatus]
    refine ⟨herr, ⟨_, "failed request: Status ", "", herr, ?_⟩, htrace, ?_⟩
    · simp [GoError.Error]
    · rw [htrace]
      simp [httpCalls, decryptCalls, stdoutWrites]
  · intro hstatus
    rcases hrp : resolvePassword W r with ⟨tp, rp⟩
    simp only [run, haddr, hreq, hdo, hstatus, hrp, decryptAndEmit]
    repeat' split
    all_goals simp_all

theorem run_primary_status_check_witness :
    (run (fakeWorld "" notFound notFound (.ok "")) (defaultRunner "")).err =
      some (.base "failed request: Status 404 Not Found") ∧
    stdoutWrites (run (fakeWorld "" notFound notFound (.ok "")) (defaultRunner "")).trace = [] :=
  have h := (run_primary_status_check (fakeWorld "" notFound notFound (.ok ""))
    (defaultRunner "") ⟨"GET", "http://host:9090/", []⟩ notFound (by decide) rfl rfl).1
    (by decide)
  ⟨h.1, h.2.2.2.2.2.2.2.2.2⟩

/-- C10: with the password option empty, the password-file variable set and a
file reader that succeeds with the empty string, `run` behaves as with no
password: no `getSalt` call, only the primary request is sent, the decryption
primitive is not called, `run` returns nil and the bounded body is written to
stdout unchanged. -/
theorem run_empty_password_file_is_no_password (W : World) (r : pasteRunner)
    (req : Request) (res : Response) (size : Int) (data : Bytes)
    (haddr : W.getenv W.pbgopyServerEnv ≠ "")
    (hreq : W.newRequest "GET" (W.getenv W.pbgopyServerEnv) = .ok req)
    (hdo : W.clientDo ⟨r.timeout⟩ (W.addBasicAuthHeader req r.basicAuth) = .ok res)
    (hstatus : res.statusCode = 200)
    (hsize : W.datasizeToBytes r.maxBufSize = .ok size)
    (hread : W.readNoMoreThan res.body size = .ok data)
    (hpw : r.password = "")
    (hfile : W.getenv W.pbgopyPasswordFileEnv ≠ "")
    (hempty : W.getPasswordFromFile (W.getenv W.pbgopyPasswordFileEnv) = .ok "") :
    (run W r).err = none ∧
    stdoutWrites (run W r).trace = [data] ∧
    decryptCalls (run W r).trace = [] ∧
    (∀ c a, Event.getSalt c a ∉ (run W r).trace) ∧
    requestsMade (run W r).trace = [("GET", W.getenv W.pbgopyServerEnv)] ∧
    httpCalls (run W r).trace = [(⟨r.timeout⟩, W.addBasicAuthHeader req r.basicAuth)] := by
  simp [run, haddr, hreq, hdo, hstatus, hsize, hread, hpw, hfile, hempty, resolvePassword,
    decryptAndEmit, stdoutWrites, decryptCalls, requestsMade, httpCalls]

theorem run_empty_password_file_is_no_password_witness :
    (run (fakeWorld "/tmp/pw" (okResponse helloBytes) notFound (.ok ""))
      (defaultRunner "")).err = none ∧
    stdoutWrites (run (fakeWorld "/tmp/pw" (okResponse helloBytes) notFound (.ok ""))
      (defaultRunner "")).trace = [helloBytes] :=
  have h := run_empty_password_file_is_no_password
    (fakeWorld "/tmp/pw" (okResponse helloBytes) notFound (.ok "")) (defaultRunner "")
    ⟨"GET", "http://host:9090/", []⟩ (okResponse helloBytes) 500000000 helloBytes
    (by decide) rfl rfl rfl rfl rfl rfl (by decide) rfl
  ⟨h.1, h.2.1⟩

theorem getSalt_trace_quiet (W : World) (r : pasteRunner) (client : Client) (a : String) :
    stdoutWrites (getSalt W r client a).1 = [] ∧ decryptCalls (getSalt W r client a).1 = [] ∧
    (∀ path, Event.getPasswordFromFile path ∉ (getSalt W r client a).1) ∧
    (∀ pw s d, Event.decrypt pw s d ∉ (getSalt W r client a).1) := by
  unfold getSalt
  simp only []
  split
  · simp [stdoutWrites, decryptCalls]
  · split
    · simp [stdoutWrites, decryptCalls]
    · split <;> simp [stdoutWrites, decryptCalls]

theorem resolvePassword_no_decrypt (W : World) (r : pasteRunner) (pw : String) (s d : Bytes) :
    Event.decrypt pw s d ∉ (resolvePassword W r).1 := by
  unfold resolvePassword
  split
  · simp
  · split <;> simp

theorem run_decrypt_uses_resolved_password (W : World) (r : pasteRunner) (pw : String)
    (s d : Bytes) (h : Event.decrypt pw s d ∈ (run W r).trace) :
    (resolvePassword W r).2 = .ok pw := by
  have k1 := resolvePassword_no_decrypt W r pw s d
  have k2 := (getSalt_trace_quiet W r ⟨r.timeout⟩ (W.getenv W.pbgopyServerEnv)).2.2.2 pw s d
  revert h
  simp only [run, decryptAndEmit]
  repeat' split
  all_goals simp_all

theorem fileReads_append (s t : List Event) :
    fileReads (s ++ t) = fileReads s ++ fileReads t := by
  induction s with
  | nil => rfl
  | cons e s ih => cases e <;> simp [fileReads, ih]

theorem getSalt_fileReads (W : World) (r : pasteRunner) (client : Client) (a : String) :
    fileReads (getSalt W r client a).1 = [] := by
  unfold getSalt
  simp only []
  split
  · simp [fileReads]
  · split
    · simp [fileReads]
    · split <;> simp [fileReads]

theorem decryptAndEmit_calls (W : World) (r : pasteRunner) (client : Client)
    (address : String) (primary : Body) (t : List Event) (data : Bytes) (password : String) :
    fileReads (decryptAndEmit W r client address primary t data password).trace = fileReads t ∧
    (password ≠ "" → decryptCalls t = [] →
      ∀ s, (getSalt W r client address).2 = .ok s →
        decryptCalls (decryptAndEmit W r client address primary t data password).trace =
          [(password, s, data)]) := by
  have k1 := (getSalt_trace_quiet W r client address).2.1
  have k2 := getSalt_fileReads W r client address
  unfold decryptAndEmit
  rcases hgs : getSalt W r client address with ⟨ts, rs⟩
  rw [hgs] at k1 k2
  simp only at k1 k2
  constructor
  · split
    · cases rs with
      | error e => simp [fileReads_append, k2, fileReads]
      | ok salt =>
        simp only
        cases W.decrypt password salt data <;> simp [fileReads_append, k2, fileReads]
    · simp [fileReads_append, fileReads]
  · intro hpw ht s hs
    simp only at hs
    subst hs
    rw [if_pos hpw]
    simp only
    cases W.decrypt password s data <;> simp [ht, k1, decryptCalls]

/-- C7: password resolution in `run` is first-non-empty-wins.  Whenever the
primary fetch and bounded read succeed (with body `data`): with a non-empty
password option, `run` goes on with exactly the option value as password, the
password file is never read (even when a path is set), and a fetched salt `s`
leads to the one call `Decrypt(option, s, data)`; with an empty option and the
password-file variable set, `run` reads that file exactly once, returns the
reader's error when it fails, and otherwise goes on with exactly the file's
contents `pw`, so that a non-empty `pw` and a fetched salt `s` lead to the one
call `Decrypt(pw, s, data)`; with both empty, `run` goes on with the empty
password: no file read, no decryption, the body written as it is.  In every
run, a decryption uses the password so resolved, never a combination. -/
theorem password_resolution_first_non_empty_wins (W : World) (r : pasteRunner) :
    (r.password ≠ "" →
      resolvePassword W r = ([], .ok r.password) ∧
      (∀ path, Event.getPasswordFromFile path ∉ (run W r).trace) ∧
      (∀ pw s d, Event.decrypt pw s d ∈ (run W r).trace → pw = r.password) ∧
      (∀ req res size data, primaryFetched W r req res size data →
        run W r = decryptAndEmit W r ⟨r.timeout⟩ (W.getenv W.pbgopyServerEnv) res.body
          (primaryTrace W r req res size) data r.password ∧
        fileReads (run W r).trace = [] ∧
        ∀ s, (getSalt W r ⟨r.timeout⟩ (W.getenv W.pbgopyServerEnv)).2 = .ok s →
          decryptCalls (run W r).trace = [(r.password, s, data)])) ∧
    (r.password = "" → W.getenv W.pbgopyPasswordFileEnv ≠ "" →
      (resolvePassword W r).2 = W.getPasswordFromFile (W.getenv W.pbgopyPasswordFileEnv) ∧
      (∀ pw s d, Event.decrypt pw s d ∈ (run W r).trace →
        W.getPasswordFromFile (W.getenv W.pbgopyPasswordFileEnv) = .ok pw) ∧
      (∀ req res size data, primaryFetched W r req res size data →
        fileReads (run W r).trace = [W.getenv W.pbgopyPasswordFileEnv] ∧
        (∀ e, W.getPasswordFromFile (W.getenv W.pbgopyPasswordFileEnv) = .error e →
          (run W r).err = some e ∧ decryptCalls (run W r).trace = [] ∧
          stdoutWrites (run W r).trace = []) ∧
        (∀ pw, W.getPasswordFromFile (W.getenv W.pbgopyPasswordFileEnv) = .ok pw →
          run W r = decryptAndEmit W r ⟨r.timeout⟩ (W.getenv W.pbgopyServerEnv) res.body
            (primaryTrace W r req res size ++
              [Event.getenv W.pbgopyPasswordFileEnv, Event.getenv W.pbgopyPasswordFileEnv,
                Event.getPasswordFromFile (W.getenv W.pbgopyPasswordFileEnv)]) data pw ∧
          (pw ≠ "" →
            ∀ s, (getSalt W r ⟨r.timeout⟩ (W.getenv W.pbgopyServerEnv)).2 = .ok s →
              decryptCalls (run W r).trace = [(pw, s, data)])))) ∧
    (r.password = "" → W.getenv W.pbgopyPasswordFileEnv = "" →
      (resolvePassword W r).2 = .ok "" ∧
      (∀ path, Event.getPasswordFromFile path ∉ (run W r).trace) ∧
      decryptCalls (run W r).trace = [] ∧
      (∀ req res size data, primaryFetched W r req res size data →
        run W r = decryptAndEmit W r ⟨r.timeout⟩ (W.getenv W.pbgopyServerEnv) res.body
          (primaryTrace W r req res size ++ [Event.getenv W.pbgopyPasswordFileEnv]) data "" ∧
        (run W r).err = none ∧ stdoutWrites (run W r).trace = [data])) := by
  refine ⟨?_, ?_, ?_⟩
  · intro h
    have hrp : resolvePassword W r = ([], .ok r.password) := by simp [resolvePassword, h]
    refine ⟨hrp, ?_, ?_, ?_⟩
    · intro path
      have k := (getSalt_trace_quiet W r ⟨r.timeout⟩ (W.getenv W.pbgopyServerEnv)).2.2.1 path
      simp only [run, hrp, decryptAndEmit]
      repeat' split
      all_goals simp_all
    · intro pw s d hmem
      have k := run_decrypt_uses_resolved_password W r pw s d hmem
      rw [hrp] at k
      simp only [Except.ok.injEq] at k
      exact k.symm
    · rintro req res size data ⟨haddr, hreq, hdo, hstatus, hsize, hread⟩
      have hrun : run W r = decryptAndEmit W r ⟨r.timeout⟩ (W.getenv W.pbgopyServerEnv)
          res.body (primaryTrace W r req res size) data r.password := by
        simp [run, haddr, hreq, hdo, hstatus, hsize, hread, hrp, primaryTrace]
      refine ⟨hrun, ?_, ?_⟩
      · rw [hrun, (decryptAndEmit_calls _ _ _ _ _ _ _ _).1]
        simp [primaryTrace, fileReads]
      · intro s hs
        rw [hrun]
        exact (decryptAndEmit_calls _ _ _ _ _ _ _ _).2 h (by simp [primaryTrace, decryptCalls])
          s hs
  · intro h hfile
    have hrp : resolvePassword W r =
        ([Event.getenv W.pbgopyPasswordFileEnv, Event.getenv W.pbgopyPasswordFileEnv,
          Event.getPasswordFromFile (W.getenv W.pbgopyPasswordFileEnv)],
        W.getPasswordFromFile (W.getenv W.pbgopyPasswordFileEnv)) := by
      simp [resolvePassword, h, hfile]
    refine ⟨by rw [hrp], ?_, ?_⟩
    · intro pw s d hmem
      have k := run_decrypt_uses_resolved_password W r pw s d hmem
      rw [hrp] at k
      exact k
    · rintro req res size data ⟨haddr, hreq, hdo, hstatus, hsize, hread⟩
      have hok : ∀ pw, W.getPasswordFromFile (W.getenv W.pbgopyPasswordFileEnv) = .ok pw →
          run W r = decryptAndEmit W r ⟨r.timeout⟩ (W.getenv W.pbgopyServerEnv) res.body
            (primaryTrace W r req res size ++
              [Event.getenv W.pbgopyPasswordFileEnv, Event.getenv W.pbgopyPasswordFileEnv,
                Event.getPasswordFromFile (W.getenv W.pbgopyPasswordFileEnv)]) data pw := by
        intro pw hpw
        simp [run, haddr, hreq, hdo, hstatus, hsize, hread, hrp, hpw, primaryTrace]
      refine ⟨?_, ?_, ?_⟩
      · cases hf : W.getPasswordFromFile (W.getenv W.pbgopyPasswordFileEnv) with
        | error e =>
          simp [run, haddr, hreq, hdo, hstatus, hsize, hread, hrp, hf, fileReads]
        | ok pw =>
          rw [hok pw hf, (decryptAndEmit_calls _ _ _ _ _ _ _ _).1]
          simp [primaryTrace, fileReads, fileReads_append]
      · intro e he
        simp [run, haddr, hreq, hdo, hstatus, hsize, hread, hrp, he, decryptCalls,
          stdoutWrites]
      · intro pw hpw
        refine ⟨hok pw hpw, ?_⟩
        intro hne s hs
        rw [hok pw hpw]
        exact (decryptAndEmit_calls _ _ _ _ _ _ _ _).2 hne
          (by simp [primaryTrace, decryptCalls]) s hs
  · intro h hfile
    have hrp : resolvePassword W r = ([Event.getenv W.pbgopyPasswordFileEnv], .ok "") := by
      simp [resolvePassword, h, hfile]
    refine ⟨by rw [hrp], ?_, ?_, ?_⟩
    · intro path
      simp only [run, hrp, decryptAndEmit]
      repeat' split
      all_goals simp_all
    · simp only [run, hrp, decryptAndEmit]
      repeat' split
      all_goals simp_all [decryptCalls]
    · rintro req res size data ⟨haddr, hreq, hdo, hstatus, hsize, hread⟩
      have hrun : run W r = decryptAndEmit W r ⟨r.timeout⟩ (W.getenv W.pbgopyServerEnv)
          res.body (primaryTrace W r req res size ++ [Event.getenv W.pbgopyPasswordFileEnv])
          data "" := by
        simp [run, haddr, hreq, hdo, hstatus, hsize, hread, hrp, primaryTrace]
      refine ⟨hrun, ?_, ?_⟩
      · rw [hrun]
        simp [decryptAndEmit]
      · rw [hrun]
        simp [decryptAndEmit, primaryTrace, stdoutWrites]

theorem password_resolution_first_non_empty_wins_witness :
    decryptCalls (run (fakeWorld "/tmp/pw" (okResponse hiBytes.reverse) (okResponse salt16)
      (.ok "other")) (defaultRunner "secret")).trace = [("secret", salt16, hiBytes.reverse)] ∧
    fileReads (run (fakeWorld "/tmp/pw" (okResponse hiBytes.reverse) (okResponse salt16)
      (.ok "other")) (defaultRunner "secret")).trace = [] ∧
    fileReads (run (fakeWorld "/tmp/pw" (okResponse hiBytes.reverse) (okResponse salt16)
      (.ok "secret")) (defaultRunner "")).trace = ["/tmp/pw"] ∧
    decryptCalls (run (fakeWorld "/tmp/pw" (okResponse hiBytes.reverse) (okResponse salt16)
      (.ok "secret")) (defaultRunner "")).trace = [("secret", salt16, hiBytes.reverse)] ∧
    stdoutWrites (run (fakeWorld "" (okResponse helloBytes) (okResponse salt16)
      (.ok "secret")) (defaultRunner "")).trace = [helloBytes] :=
  have h1 := ((password_resolution_first_non_empty_wins (fakeWorld "/tmp/pw"
    (okResponse hiBytes.reverse) (okResponse salt16) (.ok "other")) (defaultRunner "secret")).1
    (by decide)).2.2.2 ⟨"GET", "http://host:9090/", []⟩ (okResponse hiBytes.reverse) 500000000
    hiBytes.reverse ⟨by decide, rfl, rfl, rfl, rfl, rfl⟩
  have h2 := ((password_resolution_first_non_empty_wins (fakeWorld "/tmp/pw"
    (okResponse hiBytes.reverse) (okResponse salt16) (.ok "secret")) (defaultRunner "")).2.1
    (by decide) (by decide)).2.2 ⟨"GET", "http://host:9090/", []⟩ (okResponse hiBytes.reverse)
    500000000 hiBytes.reverse ⟨by decide, rfl, rfl, rfl, rfl, rfl⟩
  have h3 := ((password_resolution_first_non_empty_wins (fakeWorld ""
    (okResponse helloBytes) (okResponse salt16) (.ok "secret")) (defaultRunner "")).2.2
    (by decide) (by decide)).2.2.2 ⟨"GET", "http://host:9090/", []⟩ (okResponse helloBytes)
    500000000 helloBytes ⟨by decide, rfl, rfl, rfl, rfl, rfl⟩
  ⟨h1.2.2 salt16 rfl, h1.2.1, h2.1, (h2.2.2 "secret" rfl).2 (by decide) salt16 rfl, h3.2.2⟩

theorem decryptAndEmit_output (W : World) (r : pasteRunner) (client : Client)
    (address : String) (primary : Body) (t : List Event) (data : Bytes) (password : String)
    (ht : stdoutWrites t = []) :
    ((decryptAndEmit W r client address primary t data password).err ≠ none →
      stdoutWrites (decryptAndEmit W r client address primary t data password).trace = []) ∧
    ((decryptAndEmit W r client address primary t data password).err = none →
      writeThenClose (decryptAndEmit W r client address primary t data password).trace primary ∧
      (stdoutWrites (decryptAndEmit W r client address primary t data password).trace).length
        = 1) := by
  have k2 := (getSalt_trace_quiet W r client address).1
  unfold decryptAndEmit
  split
  · rcases hgs : getSalt W r client address with ⟨ts, rs⟩
    rw [hgs] at k2
    simp only at k2
    cases rs with
    | error e => simp [ht, k2, stdoutWrites]
    | ok salt =>
      simp only
      cases hd : W.decrypt password salt data with
      | error e => simp [ht, k2, stdoutWrites]
      | ok plain =>
        simp only
        refine ⟨by simp, fun _ => ⟨⟨t ++ ts ++ [Event.decrypt password salt data], plain,
          by simp, by simp [ht, k2, stdoutWrites]⟩, by simp [ht, k2, stdoutWrites]⟩⟩
  · exact ⟨by simp, fun _ => ⟨⟨t, data, rfl, ht⟩, by simp [ht, stdoutWrites]⟩⟩

theorem run_output_shape (W : World) (r : pasteRunner) :
    ((run W r).err ≠ none → stdoutWrites (run W r).trace = []) ∧
    ((run W r).err = none →
      ∃ req res, W.newRequest "GET" (W.getenv W.pbgopyServerEnv) = .ok req ∧
        W.clientDo ⟨r.timeout⟩ (W.addBasicAuthHeader req r.basicAuth) = .ok res ∧
        writeThenClose (run W r).trace res.body ∧
        (stdoutWrites (run W r).trace).length = 1) := by
  obtain ⟨k1, -, -, -⟩ := resolvePassword_trace_quiet W r
  simp only [run]
  split
  · simp [stdoutWrites]
  · split
    · simp [stdoutWrites]
    · rename_i req hreq
      split
      · simp [stdoutWrites]
      · rename_i res hdo
        split
        · simp [stdoutWrites]
        · split
          · simp [stdoutWrites]
          · split
            · simp [stdoutWrites]
            · split
              · rename_i hrp
                rw [hrp] at k1
                simp only at k1
                simp [stdoutWrites, k1]
              · rename_i hrp
                rw [hrp] at k1
                simp only at k1
                refine ⟨fun h => (decryptAndEmit_output _ _ _ _ _ _ _ _ ?_).1 h,
                  fun h => ⟨req, res, by assumption, by assumption,
                    (decryptAndEmit_output _ _ _ _ _ _ _ _ ?_).2 h⟩⟩ <;>
                  simp [stdoutWrites, k1]

theorem stdoutWrites_actions (t : List Event) : stdoutWrites (actions t) = stdoutWrites t := by
  induction t with
  | nil => rfl
  | cons e t ih =>
    cases e <;> simp_all [actions, stdoutWrites, Event.isClose, List.filter_cons]

theorem writeThenClose_last_action (t : List Event) (body : Body) (h : writeThenClose t body) :
    writeIsLastAction (actions t) ∧ writeAfterFallibleSteps t := by
  obtain ⟨before, text, ht, hb⟩ := h
  subst ht
  constructor
  · refine ⟨actions before, text, ?_, ?_⟩
    · simp [actions, Event.isClose]
    · rw [stdoutWrites_actions, hb]
  · exact ⟨before, text, [Event.closeBody body], rfl, hb, rfl,
      by simp [Event.fallible]⟩

/-- C8: output atomicity of `run`.  If `run` returns an error, nothing at all
has been written to stdout.  If `run` returns nil, stdout has been written to
exactly once; that write is the last action of the run, the deferred closes of
the response bodies (cleanup whose result is discarded) left aside; it comes
after every fallible step (no call whose error `run` checks follows it), and
the one call that follows it is the deferred close of the primary response
body. -/
theorem run_output_atomic (W : World) (r : pasteRunner) :
    ((run W r).err ≠ none → stdoutWrites (run W r).trace = []) ∧
    ((run W r).err = none →
      (stdoutWrites (run W r).trace).length = 1 ∧
      writeIsLastAction (actions (run W r).trace) ∧
      writeAfterFallibleSteps (run W r).trace ∧
      ∃ req res, W.newRequest "GET" (W.getenv W.pbgopyServerEnv) = .ok req ∧
        W.clientDo ⟨r.timeout⟩ (W.addBasicAuthHeader req r.basicAuth) = .ok res ∧
        writeThenClose (run W r).trace res.body) := by
  refine ⟨(run_output_shape W r).1, fun h => ?_⟩
  obtain ⟨req, res, hreq, hdo, hw, hlen⟩ := (run_output_shape W r).2 h
  exact ⟨hlen, (writeThenClose_last_action _ _ hw).1, (writeThenClose_last_action _ _ hw).2,
    req, res, hreq, hdo, hw⟩

theorem run_output_atomic_witness :
    stdoutWrites (run (fakeWorld "" (okResponse salt16) notFound (.ok ""))
        ⟨5000000000, "", "", "10b"⟩).trace = [] ∧
    writeIsLastAction (actions (run (fakeWorld "" (okResponse helloBytes) notFound (.ok ""))
        (defaultRunner "")).trace) :=
  ⟨(run_output_atomic (fakeWorld "" (okResponse salt16) notFound (.ok ""))
      ⟨5000000000, "", "", "10b"⟩).1 (by decide),
    ((run_output_atomic (fakeWorld "" (okResponse helloBytes) notFound (.ok ""))
      (defaultRunner "")).2 (by decide)).2.1⟩

theorem run_error_sources (W : World) (r : pasteRunner) (e : GoError)
    (h : (run W r).err = some e) :
    e = .base ("put the pbgopy server's address into " ++ W.pbgopyServerEnv ++
      " environment variable") ∨
    (∃ inner, e = .wrap "failed to make request: " inner) ∨
    (∃ inner, e = .wrap "failed to issue get request: " inner) ∨
    (∃ status, e = .base ("failed request: Status " ++ status)) ∨
    (∃ inner, e = .wrap "failed to parse data size: " inner) ∨
    (∃ inner, e = .wrap "failed to read the response body: " inner) ∨
    (resolvePassword W r).2 = .error e ∨
    (∃ inner, e = .wrap "failed to get salt: " inner) ∨
    (∃ inner, e = .wrap "failed to decrypt the data: " inner) := by
  revert h
  simp only [run, decryptAndEmit]
  repeat' split
  all_goals intro h
  all_goals first
    | (injection h with h; subst h; simp_all)
    | simp_all

/-- C9 fails on the password-file reader: with the password option empty, the
password-file variable set and a reader that fails with `e`, `run` returns `e`
itself (line 84), with no context around it; the returned error wraps nothing
and its message is the reader's message. -/
theorem run_password_file_error_not_wrapped :
    (run (fakeWorld "/nonexistent" (okResponse helloBytes) notFound
      (.error (.base "open /nonexistent: no such file or directory"))) (defaultRunner "")).err =
      some (.base "open /nonexistent: no such file or directory") ∧
    ((run (fakeWorld "/nonexistent" (okResponse helloBytes) notFound
      (.error (.base "open /nonexistent: no such file or directory")))
      (defaultRunner "")).err.bind GoError.unwrap) = none := by
  decide

end Pbgopy
